import Mathlib

/-!
Verification development for the loyalty competitor-analysis service
(`src/main.py`).

Python strings are modelled as `List Char` (Python string indices are
code-point indices, which matches list positions).  The Python primitives
used by the service — `str.find`, slicing, `str.strip`, `json.loads` — are
embedded as executable Lean functions below, followed by the service's own
functions (`construct_user_prompt`, `extract_json_from_text`, the
`/generate` handler pipeline) and theorems about them.
-/

set_option maxRecDepth 8000

abbrev Str := List Char

/-- Whitespace stripped by Python `str.strip()` with no argument,
restricted to the ASCII whitespace characters (the Unicode whitespace
code points play no role in any input considered here). -/
def pyWs (c : Char) : Bool :=
  c = ' ' || c = '\t' || c = '\n' || c = '\r' || c = '\x0b' || c = '\x0c'

/-- Python `str.strip()`: remove leading and trailing whitespace. -/
def pystrip (s : Str) : Str :=
  ((s.dropWhile pyWs).reverse.dropWhile pyWs).reverse

/-- Index of the first occurrence of `needle` in `hay`, if any
(the defined part of Python `str.find`). -/
def pyfindNat (hay needle : Str) : Option Nat :=
  if needle.isPrefixOf hay then some 0
  else
    match hay with
    | [] => none
    | _ :: t => (pyfindNat t needle).map (· + 1)

/-- Python `str.find`: index of the first occurrence, `-1` when absent. -/
def pyfind (hay needle : Str) : Int :=
  match pyfindNat hay needle with
  | some i => (i : Int)
  | none => -1

/-- Whether `needle` occurs as a substring of `hay` (Python `in`). -/
def occursB (needle hay : Str) : Bool := (pyfindNat hay needle).isSome

/-- Effective index of a Python slice endpoint: negative endpoints count
from the end of the string, and endpoints are clamped to `[0, len]`. -/
def pyindexEff (len : Nat) (i : Int) : Nat :=
  if i < 0 then ((len : Int) + i).toNat else min i.toNat len

/-- Python slice `s[a:b]` (step 1). -/
def pyslice (s : Str) (a b : Int) : Str :=
  (s.take (pyindexEff s.length b)).drop (pyindexEff s.length a)


/-! ## JSON values and a model of Python `json.loads` -/

/-- JSON values as produced by Python `json.loads`.  Python returns
`dict`/`list`/`str`/`int`/`float`/`bool`/`None`; object members keep their
textual order (Python dicts are insertion-ordered) and duplicate keys are
kept here (lookups take the last occurrence, as Python's dict build does).
Numbers are restricted to integers: no claim in this development involves
a float literal. -/
inductive JVal where
  | null
  | bool (tf : Bool)
  | num (int : Int)
  | str (chars : Str)
  | arr (items : List JVal)
  | obj (fields : List (Str × JVal))
deriving Repr

/-- JSON whitespace (the only whitespace `json.loads` skips). -/
def jsonWs (c : Char) : Bool := c = ' ' || c = '\t' || c = '\n' || c = '\r'

def skipWs (s : Str) : Str := s.dropWhile jsonWs

/-- Value of one hexadecimal digit (code-point arithmetic: `48`-`57` are
the decimal digits, `97`/`65` start the lower/upper case letters). -/
def hexVal (c : Char) : Option Nat :=
  let n := c.toNat
  if 48 ≤ n ∧ n ≤ 57 then some (n - 48)
  else if 97 ≤ n ∧ n ≤ 102 then some (n - 87)
  else if 65 ≤ n ∧ n ≤ 70 then some (n - 55)
  else none

/-- Value of a four-hex-digit block, as in `\uXXXX`. -/
def hex4 (h₁ h₂ h₃ h₄ : Char) : Option Nat :=
  match hexVal h₁, hexVal h₂, hexVal h₃, hexVal h₄ with
  | some a, some b, some c, some d => some (a * 4096 + b * 256 + c * 16 + d)
  | _, _, _, _ => none

def simpleEscape (c : Char) : Option Char :=
  if c = '"' then some '"'
  else if c = '\\' then some '\\'
  else if c = '/' then some '/'
  else if c = 'b' then some '\x08'
  else if c = 'f' then some '\x0c'
  else if c = 'n' then some '\n'
  else if c = 'r' then some '\r'
  else if c = 't' then some '\t'
  else none

def msgUnterminatedStr : Str := ( "Unterminated string").toList
def msgInvalidHex : Str := ( "Invalid \\uXXXX escape").toList
def msgLoneSurrogate : Str := ( "Unpaired surrogate escape").toList
def msgInvalidEscape : Str := ( "Invalid \\escape").toList
def msgCtrlChar : Str := ( "Invalid control character").toList
def msgExpectingValue : Str := ( "Expecting value").toList
def msgLeadingZero : Str := ( "Expecting value (leading zero)").toList
def msgFloatLiteral : Str := ( "Float literals are outside this model").toList
def msgExtraData : Str := ( "Extra data").toList
def msgExpectingColon : Str := ( "Expecting colon delimiter").toList
def msgExpectingKey : Str := ( "Expecting property name enclosed in double quotes").toList
def msgExpectingDelim : Str := ( "Expecting delimiter").toList
def msgDepth : Str := ( "Nesting depth exceeded").toList

/-- Body of a JSON string after the opening quote: returns the decoded
characters and the input remaining after the closing quote.  Mirrors the
strict CPython scanner: raw control characters are rejected, `\uXXXX`
escapes are decoded for scalar values.  (CPython additionally pairs — or
tolerates lone — surrogate escapes, building `str`s a Lean `Char` cannot
hold; the model rejects the surrogate-escape corner, which no claim
touches.) -/
def parseStringBody : Str → Except Str (Str × Str)
  | [] => .error msgUnterminatedStr
  | '"' :: rest => .ok ([], rest)
  | '\\' :: 'u' :: h₁ :: h₂ :: h₃ :: h₄ :: rest =>
    match hex4 h₁ h₂ h₃ h₄ with
    | none => .error msgInvalidHex
    | some m =>
      if m < 0xD800 ∨ 0xDFFF < m then
        (parseStringBody rest).map (fun p => (Char.ofNat m :: p.1, p.2))
      else .error msgLoneSurrogate
  | '\\' :: 'u' :: _ => .error msgInvalidHex
  | '\\' :: e :: rest =>
    match simpleEscape e with
    | some d => (parseStringBody rest).map (fun p => (d :: p.1, p.2))
    | none => .error msgInvalidEscape
  | '\\' :: [] => .error msgUnterminatedStr
  | c :: rest =>
    if c.toNat < 32 then .error msgCtrlChar
    else (parseStringBody rest).map (fun p => (c :: p.1, p.2))

def spanDigits : Str → (Str × Str)
  | [] => ([], [])
  | c :: rest =>
    if 48 ≤ c.toNat ∧ c.toNat ≤ 57 then
      let p := spanDigits rest
      (c :: p.1, p.2)
    else ([], c :: rest)

def digitsToNat : Str → Nat → Nat
  | [], acc => acc
  | c :: rest, acc => digitsToNat rest (acc * 10 + (c.toNat - '0'.toNat))

/-- Unsigned part of a JSON number.  Integer grammar `0 | [1-9][0-9]*`;
fractional/exponent literals (Python floats) are outside this model and
rejected, as documented at `JVal`. -/
def parseUIntBody (s : Str) : Except Str (Nat × Str) :=
  match spanDigits s with
  | ([], _) => .error msgExpectingValue
  | (d :: ds, rest) =>
    if d = '0' && !ds.isEmpty then .error msgLeadingZero
    else
      match rest with
      | c :: _ =>
        if c = '.' || c = 'e' || c = 'E' then .error msgFloatLiteral
        else .ok (digitsToNat (d :: ds) 0, rest)
      | [] => .ok (digitsToNat (d :: ds) 0, [])

def parseNumber (s : Str) : Except Str (JVal × Str) :=
  match s with
  | '-' :: rest => (parseUIntBody rest).map (fun p => (JVal.num (-(p.1 : Int)), p.2))
  | _ => (parseUIntBody s).map (fun p => (JVal.num (p.1 : Int), p.2))

mutual

/-- One JSON value (leading whitespace allowed), returning the remaining
input.  `fuel` bounds the recursion depth; `json_loads` supplies enough
fuel that the bound is never hit while scanning its input. -/
def parseValue : Nat → Str → Except Str (JVal × Str)
  | 0, _ => .error msgDepth
  | f + 1, s =>
    match skipWs s with
    | [] => .error msgExpectingValue
    | c :: rest =>
      if c = '"' then (parseStringBody rest).map (fun p => (JVal.str p.1, p.2))
      else if c = '\x7b' then
        match skipWs rest with
        | '\x7d' :: r => .ok (JVal.obj [], r)
        | r => (parseMembers f r).map (fun p => (JVal.obj p.1, p.2))
      else if c = '[' then
        match skipWs rest with
        | ']' :: r => .ok (JVal.arr [], r)
        | r => (parseElems f r).map (fun p => (JVal.arr p.1, p.2))
      else if c = 'n' then
        match rest with
        | 'u' :: 'l' :: 'l' :: r => .ok (JVal.null, r)
        | _ => .error msgExpectingValue
      else if c = 't' then
        match rest with
        | 'r' :: 'u' :: 'e' :: r => .ok (JVal.bool true, r)
        | _ => .error msgExpectingValue
      else if c = 'f' then
        match rest with
        | 'a' :: 'l' :: 's' :: 'e' :: r => .ok (JVal.bool false, r)
        | _ => .error msgExpectingValue
      else parseNumber (c :: rest)

/-- Members of a JSON object after `{` (whitespace already skipped,
nonempty member list). -/
def parseMembers : Nat → Str → Except Str (List (Str × JVal) × Str)
  | 0, _ => .error msgDepth
  | f + 1, s =>
    match s with
    | '"' :: rest =>
      match parseStringBody rest with
      | .error e => .error e
      | .ok (k, r₁) =>
        match skipWs r₁ with
        | ':' :: r₂ =>
          match parseValue f r₂ with
          | .error e => .error e
          | .ok (v, r₃) =>
            match skipWs r₃ with
            | ',' :: r₄ => (parseMembers f (skipWs r₄)).map (fun p => ((k, v) :: p.1, p.2))
            | '\x7d' :: r₄ => .ok ([(k, v)], r₄)
            | _ => .error msgExpectingDelim
        | _ => .error msgExpectingColon
    | _ => .error msgExpectingKey

/-- Elements of a JSON array after `[` (nonempty element list). -/
def parseElems : Nat → Str → Except Str (List JVal × Str)
  | 0, _ => .error msgDepth
  | f + 1, s =>
    match parseValue f s with
    | .error e => .error e
    | .ok (v, r₁) =>
      match skipWs r₁ with
      | ',' :: r₂ => (parseElems f r₂).map (fun p => (v :: p.1, p.2))
      | ']' :: r₂ => .ok ([v], r₂)
      | _ => .error msgExpectingDelim

end

/-- Python `json.loads`: parse one JSON document, requiring only
whitespace after it. -/
def json_loads (s : Str) : Except Str JVal :=
  match parseValue (2 * s.length + 2) s with
  | .error e => .error e
  | .ok (v, rest) => if skipWs rest = [] then .ok v else .error msgExtraData


/-! ## The service (`src/main.py`) -/

def start_marker : Str := ( "[JSON_START]").toList
def end_marker : Str := ( "[JSON_END]").toList

def user_prompt_head : Str :=
  ( "Please analyze the competitors and loyalty programs for ").toList

/-- The fixed text of the feedback clause of `construct_user_prompt`
(src/main.py:117), up to the interpolated feedback. -/
def feedback_instruction : Str :=
  ( "\n\nIncorporate this feedback in your analysis: ").toList

def base_user_prompt (company_name : Str) : Str :=
  user_prompt_head ++ company_name ++ [ '.' ]

def feedback_clause (feedback : Str) : Str :=
  feedback_instruction ++ feedback

/-- `construct_user_prompt` (src/main.py:113-119).  `if feedback:` is
Python truthiness on a string: the clause is appended exactly when
`feedback` is non-empty. -/
def construct_user_prompt (company_name : Str) (feedback : Str) : Str :=
  if feedback = [] then base_user_prompt company_name
  else base_user_prompt company_name ++ feedback_clause feedback

structure HTTPExceptionModel where
  status_code : Nat
  detail : Str
deriving Repr, DecidableEq

def failDetailHead : Str := ( "Failed to parse structured data from response: ").toList

/-- The candidate JSON text sliced out by `extract_json_from_text`
(src/main.py:125):
`text[text.find(start_marker) + len(start_marker):text.find(end_marker)].strip()`.
`str.find` yields `-1` when the marker is absent; the code does not check
for it, so the slice then starts at `-1 + 12 = 11` (or ends at `-1`,
i.e. one character before the end). -/
def candidate_json (text : Str) : Str :=
  pystrip (pyslice text
    (pyfind text start_marker + (start_marker.length : Int))
    (pyfind text end_marker))

/-- `extract_json_from_text` (src/main.py:121-132): `json.loads` on the
sliced candidate; any exception is caught and re-raised as
`HTTPException(500, "Failed to parse structured data from response: " +
str(e))`.  (The textual diagnostics of the Lean parser differ from
CPython's; no claim depends on the diagnostic's wording, only on its
presence after the fixed head.) -/
def extract_json_from_text (text : Str) : Except HTTPExceptionModel JVal :=
  match json_loads (candidate_json text) with
  | .ok v => .ok v
  | .error e => .error ⟨500, failDetailHead ++ e⟩

/-- The analysis half of `generate_competitor_analysis` (src/main.py:155):
`full_response[:full_response.find("[JSON_START]")].strip()`.  When the
marker is absent this silently becomes `full_response[:-1]`. -/
def analysis_of (full_response : Str) : Str :=
  pystrip (pyslice full_response 0 (pyfind full_response start_marker))

/-- `str(exc)` for the re-raise in `generate_competitor_analysis`'s
`except` clause: for an `HTTPException` the message is its detail.  (No
claim inspects this re-wrapped message.) -/
def strOfHTTPException (e : HTTPExceptionModel) : Str := e.detail

/-- The post-completion part of `generate_competitor_analysis`
(src/main.py:134-161).  The outbound call is the external collaborator,
so the model takes the completion text it returned and splits it. -/
def generate_competitor_analysis (full_response : Str) :
    Except HTTPExceptionModel (Str × JVal) :=
  match extract_json_from_text full_response with
  | .ok structured => .ok (analysis_of full_response, structured)
  | .error e => .error ⟨500, strOfHTTPException e⟩

structure CompetitorAnalysisResponse where
  generated_output : Str
  structured_data : List (Str × JVal)
deriving Repr

def msgNotADict : Str := ( "validation error: structured_data is not a dict").toList

/-- Pydantic validation of `CompetitorAnalysisResponse` (src/main.py:81-83):
`structured_data: Dict` accepts any dict and nothing else -- no schema
beyond dict-ness is enforced anywhere in the code.  A non-dict raises a
`ValidationError` that reaches the global exception handler (500). -/
def mk_CompetitorAnalysisResponse (generated_output : Str) (j : JVal) :
    Except HTTPExceptionModel CompetitorAnalysisResponse :=
  match j with
  | .obj kvs => .ok ⟨generated_output, kvs⟩
  | _ => .error ⟨500, msgNotADict⟩

/-- `generate_analysis` (src/main.py:163-183) after request validation:
what the endpoint answers once the completion text has come back. -/
def generate_endpoint_result (full_response : Str) :
    Except HTTPExceptionModel CompetitorAnalysisResponse :=
  match generate_competitor_analysis full_response with
  | .error e => .error e
  | .ok p => mk_CompetitorAnalysisResponse p.1 p.2

structure CurrentPromptData where
  existing_generated_output : Str
  user_feedback : Str
deriving Repr

structure CompetitorAnalysisRequest where
  company_name : Str
  previous_data : Option (List (Str × JVal))
  current_prompt_data : Option CurrentPromptData
  other_input_data : Option (List (Str × JVal))
deriving Repr

/-- Lookup in a parsed JSON object: Python's dict construction keeps the
last of duplicate keys. -/
def dictGet (kvs : List (Str × JVal)) (k : Str) : Option JVal :=
  match kvs with
  | [] => none
  | (k₀, v₀) :: rest =>
    match dictGet rest k with
    | some v => some v
    | none => if k₀ = k then some v₀ else none

def msgMissingCompany : Str := ( "field required: company_name").toList
def msgNotAString : Str := ( "str type expected").toList
def msgNotAnObject : Str := ( "value is not a valid dict").toList

def parseCurrentPromptData (j : JVal) : Except Str CurrentPromptData :=
  match j with
  | .obj kvs =>
    match dictGet kvs ( "existing_generated_output").toList,
          dictGet kvs ( "user_feedback").toList with
    | some (.str ego), some (.str uf) => .ok ⟨ego, uf⟩
    | _, _ => .error msgNotAString
  | _ => .error msgNotAnObject

/-- Pydantic validation of the inbound body against
`CompetitorAnalysisRequest` (src/main.py:75-79).  `company_name: str`
accepts ANY string -- including the empty string: the model declares no
minimum length.  `previous_data`/`other_input_data` default to `{}`,
`current_prompt_data` defaults to `None`. -/
def parse_request (body : JVal) : Except Str CompetitorAnalysisRequest :=
  match body with
  | .obj kvs =>
    match dictGet kvs ( "company_name").toList with
    | some (.str name) =>
      let prev : Except Str (Option (List (Str × JVal))) :=
        match dictGet kvs ( "previous_data").toList with
        | none => .ok (some [])
        | some .null => .ok none
        | some (.obj d) => .ok (some d)
        | some _ => .error msgNotAnObject
      let other : Except Str (Option (List (Str × JVal))) :=
        match dictGet kvs ( "other_input_data").toList with
        | none => .ok (some [])
        | some .null => .ok none
        | some (.obj d) => .ok (some d)
        | some _ => .error msgNotAnObject
      let cpd : Except Str (Option CurrentPromptData) :=
        match dictGet kvs ( "current_prompt_data").toList with
        | none => .ok none
        | some .null => .ok none
        | some j => (parseCurrentPromptData j).map some
      match prev, cpd, other with
      | .ok p, .ok c, .ok o => .ok ⟨name, p, c, o⟩
      | .error e, _, _ => .error e
      | _, .error e, _ => .error e
      | _, _, .error e => .error e
    | some _ => .error msgNotAString
    | none => .error msgMissingCompany
  | _ => .error msgNotAnObject

/-- Outbound completion calls made for a request body: FastAPI rejects the
body before the handler runs when validation fails (zero calls); otherwise
`generate_analysis` (src/main.py:163-174) always reaches
`client.chat.completions.create` (one call, no retry). -/
def outbound_call_count (body : JVal) : Nat :=
  match parse_request body with
  | .error _ => 0
  | .ok _ => 1

/-- src/main.py:168: `feedback = request.current_prompt_data.user_feedback
if request.current_prompt_data else ""` (a pydantic model instance is
always truthy, `None` is falsy). -/
def feedback_of (r : CompetitorAnalysisRequest) : Str :=
  match r.current_prompt_data with
  | some d => d.user_feedback
  | none => []

/-- Modelled from the spec: element check of spec §4.2 step 4 -- a
sequence of strings. -/
def isStrArr (j : JVal) : Bool :=
  match j with
  | .arr es => es.all (fun e => match e with | .str _ => true | _ => false)
  | _ => false

/-- Modelled from the spec: the Competitor shape of spec §3/§4.2 (also
declared, but never applied, as the `TopCompetitor` pydantic model at
src/main.py:62-66): `name` a string, `strengths`, `weaknesses`,
`loyalty_program_features` sequences of strings. -/
def conformsCompetitor (j : JVal) : Bool :=
  match j with
  | .obj kvs =>
    (match dictGet kvs ( "name").toList with
      | some (.str _) => true | _ => false)
    && (match dictGet kvs ( "strengths").toList with
      | some a => isStrArr a | none => false)
    && (match dictGet kvs ( "weaknesses").toList with
      | some a => isStrArr a | none => false)
    && (match dictGet kvs ( "loyalty_program_features").toList with
      | some a => isStrArr a | none => false)
  | _ => false

/-- Modelled from the spec: the StructuredResult shape (spec §3): a
top-level `top_competitors` sequence of Competitor-shaped elements.  The
code performs no such validation; this definition is the yardstick the
claims compare the code's behaviour against. -/
def conformsStructuredResult (j : JVal) : Bool :=
  match j with
  | .obj kvs =>
    match dictGet kvs ( "top_competitors").toList with
    | some (.arr es) => es.all conformsCompetitor
    | _ => false
  | _ => false




/-! ## StructuredResult and its serialization (modelled from the spec)

The round-trip property of spec §8 quantifies over StructuredResult
values and their JSON serialization.  The service itself never
serializes (the model produces the text), so the serializer below is
modelled from the spec: plain JSON with `"`/`\\` escaped, control
characters as `\u00XX`, no added whitespace. -/

/-- Spec §3: Competitor. -/
structure Competitor where
  name : Str
  strengths : List Str
  weaknesses : List Str
  loyalty_program_features : List Str

/-- Spec §3: StructuredResult. -/
structure StructuredResult where
  top_competitors : List Competitor

def keyName : Str := ( "name").toList
def keyStrengths : Str := ( "strengths").toList
def keyWeaknesses : Str := ( "weaknesses").toList
def keyFeatures : Str := ( "loyalty_program_features").toList
def keyTop : Str := ( "top_competitors").toList

def hexDigitChar (n : Nat) : Char :=
  match n with
  | 0 => '0' | 1 => '1' | 2 => '2' | 3 => '3' | 4 => '4'
  | 5 => '5' | 6 => '6' | 7 => '7' | 8 => '8' | 9 => '9'
  | 10 => 'a' | 11 => 'b' | 12 => 'c' | 13 => 'd' | 14 => 'e'
  | _ => 'f'

/-- Modelled from the spec: JSON string escaping for the serializer. -/
def escChar (c : Char) : Str :=
  if c = '"' then [ '\\', '"' ]
  else if c = '\\' then [ '\\', '\\' ]
  else if c.toNat < 32 then
    [ '\\', 'u', '0', '0', hexDigitChar (c.toNat / 16), hexDigitChar (c.toNat % 16) ]
  else [ c ]

def escapeStr (s : Str) : Str := s.flatMap escChar

def serStr (s : Str) : Str := '"' :: escapeStr s ++ [ '"' ]

def joinComma : List Str → Str
  | [] => []
  | [x] => x
  | x :: xs => x ++ ',' :: joinComma xs

def serStrList (l : List Str) : Str :=
  '[' :: joinComma (l.map serStr) ++ [ ']' ]

/-- The member sequence of a serialized Competitor (between the braces). -/
def serCompetitorInner (c : Competitor) : Str :=
  serStr keyName ++ ':' :: serStr c.name
    ++ ',' :: serStr keyStrengths ++ ':' :: serStrList c.strengths
    ++ ',' :: serStr keyWeaknesses ++ ':' :: serStrList c.weaknesses
    ++ ',' :: serStr keyFeatures ++ ':' :: serStrList c.loyalty_program_features

def serCompetitor (c : Competitor) : Str :=
  '\x7b' :: serCompetitorInner c ++ [ '\x7d' ]

def serCompetitors (l : List Competitor) : Str :=
  '[' :: joinComma (l.map serCompetitor) ++ [ ']' ]

/-- Serialized StructuredResult: the spec §8 round-trip serialization. -/
def serStructuredResult (S : StructuredResult) : Str :=
  '\x7b' :: (serStr keyTop ++ ':' :: serCompetitors S.top_competitors) ++ [ '\x7d' ]

/-- The parsed-JSON image of a Competitor (what `json.loads` gives back). -/
def competitorMembers (c : Competitor) : List (Str × JVal) :=
  [ (keyName, JVal.str c.name),
    (keyStrengths, JVal.arr (c.strengths.map JVal.str)),
    (keyWeaknesses, JVal.arr (c.weaknesses.map JVal.str)),
    (keyFeatures, JVal.arr (c.loyalty_program_features.map JVal.str)) ]

def competitorJson (c : Competitor) : JVal := JVal.obj (competitorMembers c)

def structuredResultJson (S : StructuredResult) : JVal :=
  JVal.obj [ (keyTop, JVal.arr (S.top_competitors.map competitorJson)) ]

/-- The round-trip completion text of spec §8: prefix, then the
serialized StructuredResult between the sentinel markers. -/
def wrap_completion (p : Str) (S : StructuredResult) : Str :=
  p ++ start_marker ++ serStructuredResult S ++ end_marker

/-- Fuel needed by `parseValue` on a serialized string list. -/
def strListBound (l : List Str) : Nat := l.length + 2

/-- Fuel needed by `parseMembers` on a serialized Competitor's members. -/
def compMembersBound (c : Competitor) : Nat :=
  c.strengths.length + c.weaknesses.length
    + c.loyalty_program_features.length + 12

/-- Fuel needed by `parseValue` on a serialized Competitor. -/
def compValueBound (c : Competitor) : Nat := compMembersBound c + 2

/-- Fuel needed by `parseElems` on serialized Competitors. -/
def compsBound : List Competitor → Nat
  | [] => 2
  | c :: t => compValueBound c + compsBound t

/-- Fuel needed by `parseValue` on a serialized StructuredResult. -/
def structBound (S : StructuredResult) : Nat :=
  compsBound S.top_competitors + 4

/-! ## Concrete inputs used in the theorems -/

/-- A completion with no `[JSON_START]`: `find` yields `-1`, the slice
starts at `-1 + 12 = 11`, which lands exactly on `\x7b\x7d`. -/
def exC1 : Str := ( "aaaaaaaaaaa\x7b\x7d[JSON_END]").toList

/-- A completion whose embedded JSON is valid but has no
`top_competitors` key. -/
def exC2 : Str := ( "Analysis text.[JSON_START]\x7b\"foo\": []\x7d[JSON_END]").toList

/-- A request body whose `company_name` is the empty string. -/
def exC3 : JVal := JVal.obj [(( "company_name").toList, JVal.str [])]

/-- A completion with no `[JSON_END]`: the slice ends at `-1`, i.e. one
character before the end, which again lands exactly on `\x7b\x7d`. -/
def exC4 : Str := ( "[JSON_START]\x7b\x7dA").toList

/-- A completion with no markers at all (spec: a FormatError situation). -/
def exC6format : Str := ( "completion with no markers at all").toList

/-- A completion with both markers in order and a trailing comma in the
JSON body (spec: a ParseError situation). -/
def exC6parse : Str := ( "Text.[JSON_START]\x7b\"a\": [true,]\x7d[JSON_END]").toList

def reqC9 : CompetitorAnalysisRequest :=
  ⟨( "Acme Rewards").toList, some [], none, some []⟩


/-- A round-trip prefix. -/
def prefC5 : Str := ( "Acme faces strong competition. ").toList

/-- A StructuredResult whose serialization contains `[JSON_END]` inside a
string field: the spec round-trip claim fails on it. -/
def badS : StructuredResult := ⟨[⟨( "a[JSON_END]b").toList, [], [], []⟩]⟩

/-- A well-behaved StructuredResult (no marker text in any field). -/
def goodS : StructuredResult :=
  ⟨[⟨( "Competitor A").toList, [( "Brand").toList],
     [( "Legacy tech").toList], [( "Points").toList]⟩]⟩

/-! ## Theorems -/

section FindLemmas

theorem pyfindNat_nil (needle : Str) :
    pyfindNat [] needle = if needle = [] then some 0 else none := by
  rw [pyfindNat]
  by_cases h : needle = []
  · simp [h, List.isPrefixOf_iff_prefix]
  · simp [h, List.isPrefixOf_iff_prefix, List.prefix_nil]

theorem pyfindNat_cons (c : Char) (t needle : Str) :
    pyfindNat (c :: t) needle =
      if needle <+: c :: t then some 0 else (pyfindNat t needle).map (· + 1) := by
  rw [pyfindNat]
  by_cases h : needle <+: c :: t
  · simp [h, List.isPrefixOf_iff_prefix]
  · simp [h, List.isPrefixOf_iff_prefix]

theorem pyfindNat_none_iff (needle hay : Str) :
    pyfindNat hay needle = none ↔ ∀ i, ¬ needle <+: hay.drop i := by
  induction hay with
  | nil =>
    rw [pyfindNat_nil]
    by_cases h : needle = []
    · subst h
      simp
    · simp [h, List.prefix_nil]
  | cons c t ih =>
    rw [pyfindNat_cons]
    by_cases h : needle <+: c :: t
    · simp only [if_pos h]
      constructor
      · intro hc; cases hc
      · intro hall
        exact absurd h (by simpa using hall 0)
    · simp only [if_neg h, Option.map_eq_none', ih]
      constructor
      · intro hall i
        cases i with
        | zero => simpa using h
        | succ j => simpa using hall j
      · intro hall j
        have := hall (j + 1)
        simpa using this

theorem occursB_eq_false_iff (needle hay : Str) :
    occursB needle hay = false ↔ ∀ i, ¬ needle <+: hay.drop i := by
  rw [occursB]
  cases hf : pyfindNat hay needle with
  | none =>
    simpa [Option.isSome] using (pyfindNat_none_iff needle hay).mp hf
  | some i =>
    constructor
    · intro hc; simp at hc
    · intro hall
      have hnone : pyfindNat hay needle = none :=
        (pyfindNat_none_iff needle hay).mpr hall
      rw [hf] at hnone
      cases hnone

theorem occursB_eq_true_of (needle hay : Str) (i : Nat)
    (h : needle <+: hay.drop i) : occursB needle hay = true := by
  cases hoc : occursB needle hay
  · exact absurd h ((occursB_eq_false_iff needle hay).mp hoc i)
  · rfl

/-- If `needle` occurs nowhere among the first `X.length` positions of
`X ++ Y` but is a prefix of `Y`, then its first occurrence is exactly at
position `X.length`. -/
theorem pyfindNat_append_some (X Y needle : Str)
    (hno : ∀ i, i < X.length → ¬ needle <+: (X ++ Y).drop i)
    (hY : needle <+: Y) :
    pyfindNat (X ++ Y) needle = some X.length := by
  induction X with
  | nil =>
    cases Y with
    | nil =>
      have : needle = [] := by simpa [List.prefix_nil] using hY
      subst this
      simp [pyfindNat_nil]
    | cons d u =>
      rw [List.nil_append, pyfindNat_cons, if_pos hY]
      rfl
  | cons c t ih =>
    rw [List.cons_append, pyfindNat_cons]
    have h0 : ¬ needle <+: c :: (t ++ Y) := by
      have := hno 0 (by simp)
      simpa using this
    rw [if_neg h0]
    have := ih (fun i hi => by
      have := hno (i + 1) (by simpa using Nat.succ_lt_succ hi)
      simpa using this)
    rw [this]
    simp

end FindLemmas

section OccurrenceLemmas

theorem occursB_append_middle (a b c : Str) : occursB b (a ++ b ++ c) = true := by
  apply occursB_eq_true_of _ _ a.length
  have h : a ++ b ++ c = a ++ (b ++ c) := by rw [List.append_assoc]
  rw [h, List.drop_left]
  exact List.prefix_append _ _

theorem occursB_append_right (a b : Str) : occursB b (a ++ b) = true := by
  apply occursB_eq_true_of _ _ a.length
  rw [List.drop_left]

theorem prefix_of_prefix_append (n a b : Str) (h : n <+: a ++ b)
    (hl : n.length ≤ a.length) : n <+: a := by
  rw [List.prefix_iff_eq_take] at h ⊢
  have heq : List.take n.length (a ++ b) = List.take n.length a := by
    rw [List.take_append_eq_append_take]
    have h0 : n.length - a.length = 0 := by omega
    rw [h0]
    simp
  exact h.trans heq

/-- Decompose an occurrence inside a concatenation: it lies in `X`, lies
in `Y`, or straddles the boundary. -/
theorem prefix_drop_append_cases (n X Y : Str) (i : Nat)
    (h : n <+: (X ++ Y).drop i) :
    (i + n.length ≤ X.length ∧ n <+: X.drop i) ∨
    (X.length ≤ i ∧ n <+: Y.drop (i - X.length)) ∨
    (i < X.length ∧ X.length < i + n.length ∧
      X.drop i = n.take (X.length - i) ∧ n.drop (X.length - i) <+: Y) := by
  by_cases hi : X.length ≤ i
  · right; left
    refine ⟨hi, ?_⟩
    obtain ⟨j, rfl⟩ : ∃ j, i = X.length + j := ⟨i - X.length, by omega⟩
    rw [List.drop_append] at h
    simpa [Nat.add_sub_cancel_left] using h
  · push_neg at hi
    rw [List.drop_append_of_le_length (le_of_lt hi)] at h
    by_cases hn : i + n.length ≤ X.length
    · left
      refine ⟨hn, ?_⟩
      refine prefix_of_prefix_append _ _ _ h ?_
      rw [List.length_drop]
      omega
    · right; right
      push_neg at hn
      have hkd : (X.drop i).length = X.length - i := List.length_drop i X
      have hXd : List.take n.length (X.drop i) = X.drop i :=
        List.take_of_length_le (by omega)
      have h1 : n = X.drop i ++ List.take (n.length - (X.length - i)) Y := by
        have hx := List.prefix_iff_eq_take.mp h
        rw [List.take_append_eq_append_take, hXd, hkd] at hx
        exact hx
      refine ⟨hi, hn, ?_, ?_⟩
      · rw [h1, List.take_left' hkd]
      · rw [h1, List.drop_left' hkd]
        exact List.take_prefix _ _

end OccurrenceLemmas

section PromptLemmas

theorem not_occursB_base_user_prompt (company : Str)
    (hno : occursB feedback_instruction company = false) :
    occursB feedback_instruction (base_user_prompt company) = false := by
  rw [occursB_eq_false_iff]
  intro i h
  have hshape : base_user_prompt company
      = user_prompt_head ++ (company ++ [ '.' ]) := by
    rw [base_user_prompt, List.append_assoc]
  rw [hshape] at h
  have hl : user_prompt_head.length = 56 := rfl
  have hf : feedback_instruction.length = 46 := rfl
  rcases prefix_drop_append_cases _ _ _ _ h with
    ⟨hle, hin⟩ | ⟨hge, hin⟩ | ⟨h1, h2, heq, hrest⟩
  · have hd : ∀ j, j < 11 → ¬ feedback_instruction <+: user_prompt_head.drop j := by
      decide
    exact hd i (by omega) hin
  · rcases prefix_drop_append_cases _ _ _ _ hin with
      ⟨hle2, hin2⟩ | ⟨hge2, hin2⟩ | ⟨g1, g2, geq, grest⟩
    · exact (occursB_eq_false_iff _ _).mp hno _ hin2
    · have hll := hin2.length_le
      rw [List.length_drop, hf] at hll
      simp at hll
      omega
    · have hll := grest.length_le
      rw [List.length_drop, hf] at hll
      have hk : company.length - (i - user_prompt_head.length) = 45 := by
        simp at hll
        omega
      rw [hk] at grest
      exact absurd grest (by decide)
  · have hd : ∀ j, j < 56 → ¬ user_prompt_head.drop j
        = feedback_instruction.take (56 - j) := by decide
    rw [hl] at heq
    exact hd i (by omega) heq

end PromptLemmas

/-! ## Claim theorems -/

/-- C1: the claim states that every completion text without the substring
`[JSON_START]` makes the Response Extractor fail (a FormatError).  The
code instead leaves `str.find`'s `-1` unchecked: on `exC1` the marker is
absent (`find = -1`), yet `extract_json_from_text` silently succeeds with
`{}`, and the analysis half is the truncated `full_response[:-1]`. -/
theorem C1_missing_start_marker_silent_success :
    pyfind exC1 start_marker = -1 ∧
    extract_json_from_text exC1 = .ok (JVal.obj []) ∧
    analysis_of exC1 = ( "aaaaaaaaaaa\x7b\x7d[JSON_END").toList :=
  ⟨rfl, rfl, rfl⟩

/-- C2: the claim states the service never answers 200 with a
`structured_data` that does not conform to the StructuredResult shape.
On `exC2` the embedded JSON is valid but lacks `top_competitors`; the
code performs no schema validation and the endpoint succeeds with that
non-conforming dict. -/
theorem C2_nonconforming_structured_data_returns_ok :
    generate_endpoint_result exC2 =
      .ok ⟨( "Analysis text.").toList, [(( "foo").toList, JVal.arr [])]⟩ ∧
    conformsStructuredResult (JVal.obj [(( "foo").toList, JVal.arr [])]) = false :=
  ⟨rfl, rfl⟩

/-- C3 counterexample: the claim states a request with empty
`company_name` is rejected with a ValidationError before any outbound
call (call count 0).  The pydantic model constrains `company_name` only
to be a string, so the empty string passes validation and the handler
makes its one outbound call. -/
theorem C3_empty_company_accepted_counterexample :
    (parse_request exC3).map (fun r => r.company_name) = .ok [] ∧
    outbound_call_count exC3 = 1 :=
  ⟨rfl, rfl⟩

/-- C3 (amended): a request body that passes validation -- which includes
every body whose `company_name` is present as a string, even the empty
string -- leads to exactly one outbound completion call; only a missing
or mistyped `company_name` (or malformed body) is rejected with zero
outbound calls. -/
theorem C3_empty_company_outbound_call_amended (body : JVal)
    (r : CompetitorAnalysisRequest) (h : parse_request body = .ok r)
    (hempty : r.company_name = []) :
    outbound_call_count body = 1 := by
  rw [outbound_call_count, h]

theorem C3_empty_company_outbound_call_witness :
    parse_request exC3 = .ok ⟨[], some [], none, some []⟩ ∧
    outbound_call_count exC3 = 1 :=
  ⟨rfl, C3_empty_company_outbound_call_amended exC3 ⟨[], some [], none, some []⟩ rfl rfl⟩

/-- C4: the claim states that a completion without `[JSON_END]` (or with
it only before `[JSON_START]`) makes the extractor fail.  With
`[JSON_END]` absent, `find` yields `-1` and the slice silently ends one
character before the end of the text: on `exC4` the extractor succeeds
with `{}`. -/
theorem C4_missing_end_marker_silent_success :
    pyfind exC4 end_marker = -1 ∧
    extract_json_from_text exC4 = .ok (JVal.obj []) :=
  ⟨rfl, rfl⟩

/-- C6 counterexample: the claim states a malformed JSON body between
valid markers yields a ParseError, "a failure kind distinct from
FormatError".  The code has a single failure kind: a missing-marker
completion (`exC6format`) and a trailing-comma completion (`exC6parse`)
both produce an `HTTPException` with the same status 500 and the same
message head -- no distinct kinds exist. -/
theorem C6_failure_kind_not_distinct_counterexample :
    occursB start_marker exC6format = false ∧
    occursB start_marker exC6parse = true ∧
    occursB end_marker exC6parse = true ∧
    extract_json_from_text exC6format =
      .error ⟨500, failDetailHead ++ msgExpectingValue⟩ ∧
    extract_json_from_text exC6parse =
      .error ⟨500, failDetailHead ++ msgExpectingValue⟩ :=
  ⟨rfl, rfl, rfl, rfl, rfl⟩

/-- C6 (amended): for a completion with both markers in valid order whose
candidate text does not parse as JSON, the extractor fails with the
service's single extraction-failure kind -- HTTP 500, message
`"Failed to parse structured data from response: "` followed by the
parser diagnostic; the kind is not distinct from that of marker
(format) violations. -/
theorem C6_parse_error_single_kind_amended (t d : Str)
    (hs : 0 ≤ pyfind t start_marker)
    (he : pyfind t start_marker + (start_marker.length : Int) ≤ pyfind t end_marker)
    (hp : json_loads (candidate_json t) = .error d) :
    extract_json_from_text t = .error ⟨500, failDetailHead ++ d⟩ := by
  rw [extract_json_from_text, hp]

theorem C6_parse_error_single_kind_witness :
    extract_json_from_text exC6parse =
      .error ⟨500, failDetailHead ++ msgExpectingValue⟩ :=
  C6_parse_error_single_kind_amended exC6parse msgExpectingValue
    (by decide) (by decide) rfl

/-- C7 counterexample: the claim states that for EVERY non-empty
`company_name` (with empty feedback) the user instruction contains no
occurrence of the feedback-instruction text.  A company name that itself
contains that text refutes it. -/
theorem C7_feedback_text_in_company_counterexample :
    feedback_instruction ≠ [] ∧
    occursB feedback_instruction
      (construct_user_prompt feedback_instruction []) = true :=
  ⟨by decide, rfl⟩

/-- C7 (amended): for every non-empty `company_name` that does not itself
contain the feedback-instruction text, the user instruction built with
empty feedback contains `company_name` verbatim and contains no
occurrence of the feedback-instruction text. -/
theorem C7_no_feedback_clause_amended (company : Str) (hc : company ≠ [])
    (hno : occursB feedback_instruction company = false) :
    occursB company (construct_user_prompt company []) = true ∧
    occursB feedback_instruction (construct_user_prompt company []) = false := by
  have hcp : construct_user_prompt company [] = base_user_prompt company := by
    rw [construct_user_prompt, if_pos rfl]
  rw [hcp]
  constructor
  · rw [base_user_prompt]
    exact occursB_append_middle _ _ _
  · exact not_occursB_base_user_prompt company hno

theorem C7_no_feedback_clause_witness :
    occursB (( "Acme Rewards").toList)
      (construct_user_prompt (( "Acme Rewards").toList) []) = true ∧
    occursB feedback_instruction
      (construct_user_prompt (( "Acme Rewards").toList) []) = false :=
  C7_no_feedback_clause_amended (( "Acme Rewards").toList) (by decide) rfl

/-- C8: for every non-empty `company_name` and non-empty `feedback`, the
user instruction is the company-name sentence followed by the feedback
clause, and contains both `company_name` and `feedback` verbatim as
substrings. -/
theorem C8_prompt_contains_company_and_feedback (company feedback : Str)
    (hc : company ≠ []) (hf : feedback ≠ []) :
    construct_user_prompt company feedback =
      base_user_prompt company ++ feedback_clause feedback ∧
    occursB company (construct_user_prompt company feedback) = true ∧
    occursB feedback (construct_user_prompt company feedback) = true := by
  have heq : construct_user_prompt company feedback =
      base_user_prompt company ++ feedback_clause feedback := by
    rw [construct_user_prompt, if_neg hf]
  refine ⟨heq, ?_, ?_⟩
  · rw [heq, base_user_prompt]
    have hsh : user_prompt_head ++ company ++ [ '.' ] ++ feedback_clause feedback
        = user_prompt_head ++ company ++ ([ '.' ] ++ feedback_clause feedback) := by
      simp [List.append_assoc]
    rw [hsh]
    exact occursB_append_middle _ _ _
  · rw [heq, feedback_clause]
    have hsh : base_user_prompt company ++ (feedback_instruction ++ feedback)
        = (base_user_prompt company ++ feedback_instruction) ++ feedback := by
      simp [List.append_assoc]
    rw [hsh]
    exact occursB_append_right _ _

theorem C8_prompt_contains_company_and_feedback_witness :
    construct_user_prompt (( "Acme").toList) (( "focus on tiers").toList) =
      base_user_prompt (( "Acme").toList)
        ++ feedback_clause (( "focus on tiers").toList) ∧
    occursB (( "Acme").toList)
      (construct_user_prompt (( "Acme").toList) (( "focus on tiers").toList)) = true ∧
    occursB (( "focus on tiers").toList)
      (construct_user_prompt (( "Acme").toList) (( "focus on tiers").toList)) = true :=
  C8_prompt_contains_company_and_feedback (( "Acme").toList)
    (( "focus on tiers").toList) (by decide) (by decide)

/-- C9: the feedback passed to the Prompt Builder is the empty string
when `current_prompt_data` is absent -- so the user instruction is the
bare company sentence, with no feedback clause appended -- and is exactly
`current_prompt_data.user_feedback` when it is present. -/
theorem C9_feedback_selection (r : CompetitorAnalysisRequest) (company : Str) :
    (r.current_prompt_data = none →
      feedback_of r = [] ∧
      construct_user_prompt company (feedback_of r) = base_user_prompt company) ∧
    (∀ d, r.current_prompt_data = some d → feedback_of r = d.user_feedback) := by
  constructor
  · intro h
    have hfb : feedback_of r = [] := by rw [feedback_of, h]
    refine ⟨hfb, ?_⟩
    rw [hfb, construct_user_prompt, if_pos rfl]
  · intro d h
    rw [feedback_of, h]

theorem C9_feedback_selection_witness :
    feedback_of reqC9 = [] ∧
    construct_user_prompt (( "Acme Rewards").toList) (feedback_of reqC9) =
      base_user_prompt (( "Acme Rewards").toList) :=
  (C9_feedback_selection reqC9 (( "Acme Rewards").toList)).1 rfl

/-- C10: `extract_json_from_text` is total -- for every input text it
either returns a parsed JSON value or fails with the single HTTP-500
failure whose message begins with
`"Failed to parse structured data from response"`; no other failure
shape is possible, because the one `except` clause rewraps every
exception. -/
theorem C10_extract_total_single_failure (text : Str) :
    (∃ v, extract_json_from_text text = .ok v) ∨
    (∃ d, extract_json_from_text text = .error ⟨500, failDetailHead ++ d⟩) := by
  cases h : json_loads (candidate_json text) with
  | ok v => exact .inl ⟨v, by rw [extract_json_from_text, h]⟩
  | error e => exact .inr ⟨e, by rw [extract_json_from_text, h]⟩

section RoundTrip

theorem skipWs_cons_not (c : Char) (r : Str) (h : jsonWs c = false) :
    skipWs (c :: r) = c :: r := by
  rw [skipWs, List.dropWhile_cons, h]
  simp

theorem hexVal_hexDigitChar (n : Nat) (h : n < 16) :
    hexVal (hexDigitChar n) = some n := by
  have hd : ∀ m, m < 16 → hexVal (hexDigitChar m) = some m := by decide
  exact hd n h

theorem hex4_encode (n : Nat) (h : n < 32) :
    hex4 '0' '0' (hexDigitChar (n / 16)) (hexDigitChar (n % 16)) = some n := by
  have h2 : hexVal (hexDigitChar (n / 16)) = some (n / 16) :=
    hexVal_hexDigitChar _ (by omega)
  have h3 : hexVal (hexDigitChar (n % 16)) = some (n % 16) :=
    hexVal_hexDigitChar _ (by omega)
  rw [hex4, h2, h3]
  rw [show hexVal '0' = some 0 from rfl]
  simp only [Option.some.injEq]
  omega

theorem parseStringBody_close (r : Str) :
    parseStringBody ('"' :: r) = .ok ([], r) := rfl

theorem parseStringBody_plain (c : Char) (X : Str)
    (h1 : c ≠ '"') (h2 : c ≠ '\\') (h3 : ¬ c.toNat < 32) :
    parseStringBody (c :: X) = (parseStringBody X).map (fun p => (c :: p.1, p.2)) := by
  rw [parseStringBody]
  · rw [if_neg h3]
  all_goals intros
  all_goals simp_all

theorem parseStringBody_simple_escape (e d : Char) (X : Str)
    (he : e ≠ 'u') (hd : simpleEscape e = some d) :
    parseStringBody ('\\' :: e :: X)
      = (parseStringBody X).map (fun p => (d :: p.1, p.2)) := by
  rw [parseStringBody]
  · rw [hd]
  all_goals intros
  all_goals simp_all

theorem parseStringBody_u_escape (d₁ d₂ : Char) (m : Nat) (X : Str)
    (hm : hex4 '0' '0' d₁ d₂ = some m) (hlt : m < 0xD800) :
    parseStringBody ('\\' :: 'u' :: '0' :: '0' :: d₁ :: d₂ :: X)
      = (parseStringBody X).map (fun p => (Char.ofNat m :: p.1, p.2)) := by
  rw [parseStringBody, hm]
  show (if m < 0xD800 ∨ 0xDFFF < m then
      (parseStringBody X).map (fun p => (Char.ofNat m :: p.1, p.2))
    else Except.error msgLoneSurrogate)
    = (parseStringBody X).map (fun p => (Char.ofNat m :: p.1, p.2))
  rw [if_pos (Or.inl hlt)]

theorem parseStringBody_escape (s r : Str) :
    parseStringBody (escapeStr s ++ ('"' :: r)) = .ok (s, r) := by
  induction s with
  | nil =>
    simp only [escapeStr, List.flatMap_nil, List.nil_append]
    exact parseStringBody_close r
  | cons c cs ih =>
    have hrest : escapeStr (c :: cs) ++ ('"' :: r)
        = escChar c ++ (escapeStr cs ++ ('"' :: r)) := by
      simp [escapeStr, List.flatMap_cons, List.append_assoc]
    rw [hrest]
    by_cases hq : c = '"'
    · subst hq
      rw [show escChar '"' = [ '\\', '"' ] from rfl]
      rw [show ([ '\\', '"' ] : Str) ++ (escapeStr cs ++ ('"' :: r))
          = '\\' :: '"' :: (escapeStr cs ++ ('"' :: r)) from rfl]
      rw [parseStringBody_simple_escape '"' '"' _ (by decide) rfl, ih]
      rfl
    · by_cases hb : c = '\\'
      · subst hb
        rw [show escChar '\\' = [ '\\', '\\' ] from rfl]
        rw [show ([ '\\', '\\' ] : Str) ++ (escapeStr cs ++ ('"' :: r))
            = '\\' :: '\\' :: (escapeStr cs ++ ('"' :: r)) from rfl]
        rw [parseStringBody_simple_escape '\\' '\\' _ (by decide) rfl, ih]
        rfl
      · by_cases hc32 : c.toNat < 32
        · have hesc : escChar c
              = [ '\\', 'u', '0', '0', hexDigitChar (c.toNat / 16),
                  hexDigitChar (c.toNat % 16) ] := by
            rw [escChar, if_neg hq, if_neg hb, if_pos hc32]
          rw [hesc]
          rw [show ([ '\\', 'u', '0', '0', hexDigitChar (c.toNat / 16),
                hexDigitChar (c.toNat % 16) ] : Str) ++ (escapeStr cs ++ ('"' :: r))
              = '\\' :: 'u' :: '0' :: '0' :: hexDigitChar (c.toNat / 16)
                :: hexDigitChar (c.toNat % 16) :: (escapeStr cs ++ ('"' :: r)) from rfl]
          rw [parseStringBody_u_escape _ _ c.toNat _ (hex4_encode _ hc32) (by omega), ih]
          simp only [Char.ofNat_toNat]
          rfl
        · have hesc : escChar c = [ c ] := by
            rw [escChar, if_neg hq, if_neg hb, if_neg hc32]
          rw [hesc]
          rw [show ([ c ] : Str) ++ (escapeStr cs ++ ('"' :: r))
              = c :: (escapeStr cs ++ ('"' :: r)) from rfl]
          rw [parseStringBody_plain c _ hq hb hc32, ih]
          rfl

end RoundTrip

section RoundTripValues

theorem serStr_cons_form (s r : Str) :
    serStr s ++ r = '"' :: (escapeStr s ++ ('"' :: r)) := by
  simp [serStr, List.append_assoc]

theorem parseValue_serStr (f : Nat) (s r : Str) :
    parseValue (f + 1) (serStr s ++ r) = .ok (JVal.str s, r) := by
  rw [serStr_cons_form]
  rw [show parseValue (f + 1) ('"' :: (escapeStr s ++ ('"' :: r)))
      = (parseStringBody (escapeStr s ++ ('"' :: r))).map
          (fun p => (JVal.str p.1, p.2)) from rfl]
  rw [parseStringBody_escape]
  rfl

theorem parseValue_arr_empty (f : Nat) (r : Str) :
    parseValue (f + 1) ('[' :: (']' :: r)) = .ok (JVal.arr [], r) := rfl

theorem parseValue_arr_step_quote (f : Nat) (X : Str) :
    parseValue (f + 1) ('[' :: ('"' :: X))
      = (parseElems f ('"' :: X)).map (fun p => (JVal.arr p.1, p.2)) := rfl

theorem parseValue_arr_step_brace (f : Nat) (X : Str) :
    parseValue (f + 1) ('[' :: ('\x7b' :: X))
      = (parseElems f ('\x7b' :: X)).map (fun p => (JVal.arr p.1, p.2)) := rfl

theorem parseValue_obj_step (f : Nat) (X : Str) :
    parseValue (f + 1) ('\x7b' :: ('"' :: X))
      = (parseMembers f ('"' :: X)).map (fun p => (JVal.obj p.1, p.2)) := rfl

theorem parseElems_step_last (f : Nat) (X : Str) (v : JVal) (r : Str)
    (h : parseValue f X = .ok (v, ']' :: r)) :
    parseElems (f + 1) X = .ok ([v], r) := by
  rw [parseElems, h]
  rfl

theorem parseElems_step_cons (f : Nat) (X : Str) (v : JVal) (r : Str)
    (h : parseValue f X = .ok (v, ',' :: r)) :
    parseElems (f + 1) X = (parseElems f r).map (fun p => (v :: p.1, p.2)) := by
  rw [parseElems, h]
  rfl

theorem parseMembers_step_more (f : Nat) (k V r : Str) (v : JVal)
    (hv : parseValue f V = .ok (v, ',' :: r)) :
    parseMembers (f + 1) ('"' :: (escapeStr k ++ ('"' :: (':' :: V))))
      = (parseMembers f (skipWs r)).map (fun p => ((k, v) :: p.1, p.2)) := by
  rw [parseMembers, parseStringBody_escape]
  show ((match parseValue f V with
    | Except.error e => Except.error e
    | Except.ok (v, r₃) =>
      match skipWs r₃ with
      | ',' :: r₄ => (parseMembers f (skipWs r₄)).map (fun p => ((k, v) :: p.1, p.2))
      | '\x7d' :: r₄ => Except.ok ([(k, v)], r₄)
      | _ => Except.error msgExpectingDelim) : Except Str (List (Str × JVal) × Str))
    = (parseMembers f (skipWs r)).map (fun p => ((k, v) :: p.1, p.2))
  rw [hv]
  rfl

theorem parseMembers_step_close (f : Nat) (k V r : Str) (v : JVal)
    (hv : parseValue f V = .ok (v, '\x7d' :: r)) :
    parseMembers (f + 1) ('"' :: (escapeStr k ++ ('"' :: (':' :: V))))
      = .ok ([(k, v)], r) := by
  rw [parseMembers, parseStringBody_escape]
  show ((match parseValue f V with
    | Except.error e => Except.error e
    | Except.ok (v, r₃) =>
      match skipWs r₃ with
      | ',' :: r₄ => (parseMembers f (skipWs r₄)).map (fun p => ((k, v) :: p.1, p.2))
      | '\x7d' :: r₄ => Except.ok ([(k, v)], r₄)
      | _ => Except.error msgExpectingDelim) : Except Str (List (Str × JVal) × Str))
    = Except.ok ([(k, v)], r)
  rw [hv]
  rfl

end RoundTripValues

section RoundTripLists

theorem parseElems_serStrs (l : List Str) (f : Nat) (r : Str)
    (hne : l ≠ []) (hf : l.length + 1 ≤ f) :
    parseElems f (joinComma (l.map serStr) ++ (']' :: r))
      = .ok (l.map JVal.str, r) := by
  induction l generalizing f r with
  | nil => exact absurd rfl hne
  | cons x t ih =>
    obtain ⟨f₀, rfl⟩ : ∃ g, f = g + 1 := ⟨f - 1, by omega⟩
    obtain ⟨f₁, rfl⟩ : ∃ g, f₀ = g + 1 := by
      refine ⟨f₀ - 1, ?_⟩
      simp only [List.length_cons] at hf
      omega
    cases t with
    | nil =>
      rw [show joinComma ([x].map serStr) = serStr x from rfl]
      exact parseElems_step_last _ _ _ _ (parseValue_serStr f₁ x (']' :: r))
    | cons y u =>
      rw [show joinComma ((x :: y :: u).map serStr)
          = serStr x ++ ',' :: joinComma ((y :: u).map serStr) from rfl]
      rw [List.append_assoc]
      rw [parseElems_step_cons _ _ _ _
        (parseValue_serStr f₁ x (',' :: joinComma ((y :: u).map serStr) ++ (']' :: r)))]
      simp only [List.append_eq]
      rw [ih (f₁ + 1) r (by simp) (by simp only [List.length_cons] at hf ⊢; omega)]
      rfl

theorem serStrList_cons_form (l : List Str) (r : Str) :
    serStrList l ++ r = '[' :: (joinComma (l.map serStr) ++ (']' :: r)) := by
  simp [serStrList, List.append_assoc]

theorem parseValue_serStrList (f : Nat) (l : List Str) (r : Str)
    (hb : strListBound l ≤ f) :
    parseValue f (serStrList l ++ r) = .ok (JVal.arr (l.map JVal.str), r) := by
  have hb' : l.length + 2 ≤ f := hb
  obtain ⟨f₀, rfl⟩ : ∃ g, f = g + 1 := ⟨f - 1, by omega⟩
  rw [serStrList_cons_form]
  cases l with
  | nil => exact parseValue_arr_empty f₀ r
  | cons x t =>
    obtain ⟨Z, hx⟩ : ∃ Z, joinComma ((x :: t).map serStr) ++ (']' :: r)
        = '"' :: Z := by
      cases t with
      | nil =>
        refine ⟨escapeStr x ++ ('"' :: (']' :: r)), ?_⟩
        rw [show joinComma ([x].map serStr) = serStr x from rfl, serStr_cons_form]
      | cons y u =>
        refine ⟨escapeStr x
          ++ ('"' :: (',' :: (joinComma ((y :: u).map serStr) ++ (']' :: r)))), ?_⟩
        rw [show joinComma ((x :: y :: u).map serStr)
            = serStr x ++ ',' :: joinComma ((y :: u).map serStr) from rfl]
        simp [serStr, List.append_assoc]
    rw [hx, parseValue_arr_step_quote, ← hx]
    rw [parseElems_serStrs _ _ _ (by simp) (by simp only [List.length_cons] at hb' ⊢; omega)]
    rfl

end RoundTripLists

section RoundTripCompetitor

theorem serCompetitorInner_cons_form (c : Competitor) (r : Str) :
    serCompetitorInner c ++ ('\x7d' :: r)
      = '"' :: (escapeStr keyName ++ ('"' :: (':' :: (serStr c.name ++ (',' :: ('"' :: (escapeStr keyStrengths ++ ('"' :: (':' :: (serStrList c.strengths ++ (',' :: ('"' :: (escapeStr keyWeaknesses ++ ('"' :: (':' :: (serStrList c.weaknesses ++ (',' :: ('"' :: (escapeStr keyFeatures ++ ('"' :: (':' :: (serStrList c.loyalty_program_features ++ ('\x7d' :: r))))))))))))))))))))))) := by
  simp [serCompetitorInner, serStr, List.append_assoc]

theorem parseMembers_serCompetitorInner (f : Nat) (c : Competitor) (r : Str)
    (hb : compMembersBound c ≤ f) :
    parseMembers f (serCompetitorInner c ++ ('\x7d' :: r))
      = .ok (competitorMembers c, r) := by
  have hb' : c.strengths.length + c.weaknesses.length
      + c.loyalty_program_features.length + 12 ≤ f := hb
  obtain ⟨m₁, rfl⟩ : ∃ g, f = g + 1 := ⟨f - 1, by omega⟩
  obtain ⟨m₂, rfl⟩ : ∃ g, m₁ = g + 1 := ⟨m₁ - 1, by omega⟩
  obtain ⟨m₃, rfl⟩ : ∃ g, m₂ = g + 1 := ⟨m₂ - 1, by omega⟩
  obtain ⟨m₄, rfl⟩ : ∃ g, m₃ = g + 1 := ⟨m₃ - 1, by omega⟩
  rw [serCompetitorInner_cons_form]
  rw [parseMembers_step_more _ _ _ _ _ (parseValue_serStr (m₄ + 1 + 1) c.name _)]
  rw [skipWs_cons_not _ _ (by decide)]
  rw [parseMembers_step_more _ _ _ _ _
    (parseValue_serStrList (m₄ + 1 + 1) c.strengths _
      (by show c.strengths.length + 2 ≤ m₄ + 1 + 1; omega))]
  rw [skipWs_cons_not _ _ (by decide)]
  rw [parseMembers_step_more _ _ _ _ _
    (parseValue_serStrList (m₄ + 1) c.weaknesses _
      (by show c.weaknesses.length + 2 ≤ m₄ + 1; omega))]
  rw [skipWs_cons_not _ _ (by decide)]
  rw [parseMembers_step_close _ _ _ _ _
    (parseValue_serStrList m₄ c.loyalty_program_features _
      (by show c.loyalty_program_features.length + 2 ≤ m₄; omega))]
  rfl

theorem serCompetitor_cons_form (c : Competitor) (r : Str) :
    serCompetitor c ++ r = '\x7b' :: (serCompetitorInner c ++ ('\x7d' :: r)) := by
  simp [serCompetitor, List.append_assoc]

theorem parseValue_serCompetitor (f : Nat) (c : Competitor) (r : Str)
    (hb : compValueBound c ≤ f) :
    parseValue f (serCompetitor c ++ r) = .ok (competitorJson c, r) := by
  have hb' : compMembersBound c + 2 ≤ f := hb
  obtain ⟨f₀, rfl⟩ : ∃ g, f = g + 1 := ⟨f - 1, by
    have : compMembersBound c + 2 ≤ f := hb'
    omega⟩
  rw [serCompetitor_cons_form, serCompetitorInner_cons_form,
    parseValue_obj_step, ← serCompetitorInner_cons_form]
  rw [parseMembers_serCompetitorInner f₀ c r (by
    have : compMembersBound c + 2 ≤ f₀ + 1 := hb'
    omega)]
  rfl

end RoundTripCompetitor

section RoundTripStructured

theorem compValueBound_ge (c : Competitor) : 14 ≤ compValueBound c := by
  show 14 ≤ compMembersBound c + 2
  show 14 ≤ c.strengths.length + c.weaknesses.length
    + c.loyalty_program_features.length + 12 + 2
  omega

theorem two_le_compsBound (l : List Competitor) : 2 ≤ compsBound l := by
  cases l with
  | nil => exact le_refl 2
  | cons x t =>
    have := compValueBound_ge x
    show 2 ≤ compValueBound x + compsBound t
    omega

theorem parseElems_serCompetitors (l : List Competitor) (f : Nat) (r : Str)
    (hne : l ≠ []) (hf : compsBound l ≤ f) :
    parseElems f (joinComma (l.map serCompetitor) ++ (']' :: r))
      = .ok (l.map competitorJson, r) := by
  induction l generalizing f r with
  | nil => exact absurd rfl hne
  | cons x t ih =>
    have hx : compValueBound x + compsBound t ≤ f := hf
    have h14 := compValueBound_ge x
    have h2 := two_le_compsBound t
    obtain ⟨f₀, rfl⟩ : ∃ g, f = g + 1 := ⟨f - 1, by omega⟩
    cases t with
    | nil =>
      rw [show joinComma ([x].map serCompetitor) = serCompetitor x from rfl]
      exact parseElems_step_last _ _ _ _
        (parseValue_serCompetitor f₀ x (']' :: r) (by
          show compMembersBound x + 2 ≤ f₀
          have : compValueBound x = compMembersBound x + 2 := rfl
          omega))
    | cons y u =>
      rw [show joinComma ((x :: y :: u).map serCompetitor)
          = serCompetitor x ++ ',' :: joinComma ((y :: u).map serCompetitor) from rfl]
      rw [List.append_assoc]
      rw [parseElems_step_cons _ _ _ _
        (parseValue_serCompetitor f₀ x
          (',' :: joinComma ((y :: u).map serCompetitor) ++ (']' :: r)) (by
          show compMembersBound x + 2 ≤ f₀
          have : compValueBound x = compMembersBound x + 2 := rfl
          omega))]
      simp only [List.append_eq]
      rw [ih f₀ r (by simp) (by omega)]
      rfl

theorem serCompetitors_cons_form (l : List Competitor) (r : Str) :
    serCompetitors l ++ r
      = '[' :: (joinComma (l.map serCompetitor) ++ (']' :: r)) := by
  simp [serCompetitors, List.append_assoc]

theorem parseValue_serCompetitors (f : Nat) (l : List Competitor) (r : Str)
    (hb : compsBound l + 1 ≤ f) :
    parseValue f (serCompetitors l ++ r)
      = .ok (JVal.arr (l.map competitorJson), r) := by
  have h2 := two_le_compsBound l
  obtain ⟨f₀, rfl⟩ : ∃ g, f = g + 1 := ⟨f - 1, by omega⟩
  rw [serCompetitors_cons_form]
  cases l with
  | nil => exact parseValue_arr_empty f₀ r
  | cons x t =>
    obtain ⟨Z, hx⟩ : ∃ Z, joinComma ((x :: t).map serCompetitor) ++ (']' :: r)
        = '\x7b' :: Z := by
      cases t with
      | nil =>
        refine ⟨serCompetitorInner x ++ ('\x7d' :: (']' :: r)), ?_⟩
        rw [show joinComma ([x].map serCompetitor) = serCompetitor x from rfl,
          serCompetitor_cons_form]
      | cons y u =>
        refine ⟨serCompetitorInner x ++ ('\x7d' ::
          (',' :: (joinComma ((y :: u).map serCompetitor) ++ (']' :: r)))), ?_⟩
        rw [show joinComma ((x :: y :: u).map serCompetitor)
            = serCompetitor x ++ ',' :: joinComma ((y :: u).map serCompetitor) from rfl]
        simp [serCompetitor, List.append_assoc]
    rw [hx, parseValue_arr_step_brace, ← hx]
    rw [parseElems_serCompetitors _ _ _ (by simp) (by omega)]
    rfl

theorem serStructuredResult_cons_form (S : StructuredResult) (r : Str) :
    serStructuredResult S ++ r
      = '\x7b' :: ('"' :: (escapeStr keyTop ++ ('"' :: (':' ::
          (serCompetitors S.top_competitors ++ ('\x7d' :: r)))))) := by
  rw [serStructuredResult]
  rw [show serStr keyTop = '"' :: (escapeStr keyTop ++ [ '"' ]) from rfl]
  simp [List.append_assoc]

theorem parseValue_serStructuredResult (f : Nat) (S : StructuredResult) (r : Str)
    (hb : structBound S ≤ f) :
    parseValue f (serStructuredResult S ++ r)
      = .ok (structuredResultJson S, r) := by
  have hb' : compsBound S.top_competitors + 4 ≤ f := hb
  obtain ⟨f₀, rfl⟩ : ∃ g, f = g + 1 := ⟨f - 1, by omega⟩
  obtain ⟨f₁, rfl⟩ : ∃ g, f₀ = g + 1 := ⟨f₀ - 1, by omega⟩
  rw [serStructuredResult_cons_form, parseValue_obj_step]
  rw [parseMembers_step_close _ _ _ _ _
    (parseValue_serCompetitors f₁ S.top_competitors _ (by omega))]
  rfl

end RoundTripStructured

section RoundTripFuel

theorem le_length_serStr (s : Str) : 2 ≤ (serStr s).length := by
  simp [serStr, List.length_append]

theorem length_serStrList_eq (l : List Str) :
    (serStrList l).length = 2 + (joinComma (l.map serStr)).length := by
  simp [serStrList, List.length_append]
  omega

theorem le_length_serStrList (l : List Str) :
    strListBound l ≤ (serStrList l).length := by
  show l.length + 2 ≤ (serStrList l).length
  induction l with
  | nil => simp [serStrList, joinComma]
  | cons x t ih =>
    rw [length_serStrList_eq]
    cases t with
    | nil =>
      have := le_length_serStr x
      rw [show joinComma ([x].map serStr) = serStr x from rfl]
      simp only [List.length_cons, List.length_nil]
      omega
    | cons y u =>
      have hx := le_length_serStr x
      rw [length_serStrList_eq] at ih
      rw [show joinComma ((x :: y :: u).map serStr)
          = serStr x ++ ',' :: joinComma ((y :: u).map serStr) from rfl]
      simp only [List.length_append, List.length_cons] at ih ⊢
      omega

theorem le_length_serCompetitor (c : Competitor) :
    compValueBound c ≤ (serCompetitor c).length := by
  have h1 := le_length_serStrList c.strengths
  have h2 := le_length_serStrList c.weaknesses
  have h3 := le_length_serStrList c.loyalty_program_features
  have h4 := le_length_serStr c.name
  show compMembersBound c + 2 ≤ (serCompetitor c).length
  show c.strengths.length + c.weaknesses.length
    + c.loyalty_program_features.length + 12 + 2 ≤ (serCompetitor c).length
  have hs : strListBound c.strengths = c.strengths.length + 2 := rfl
  have hw : strListBound c.weaknesses = c.weaknesses.length + 2 := rfl
  have hf : strListBound c.loyalty_program_features
      = c.loyalty_program_features.length + 2 := rfl
  rw [hs] at h1
  rw [hw] at h2
  rw [hf] at h3
  simp only [serCompetitor, serCompetitorInner, List.length_append,
    List.length_cons] at *
  omega

theorem length_serCompetitors_eq (l : List Competitor) :
    (serCompetitors l).length = 2 + (joinComma (l.map serCompetitor)).length := by
  simp [serCompetitors, List.length_append]
  omega

theorem le_length_serCompetitors (l : List Competitor) :
    compsBound l ≤ (serCompetitors l).length + 1 := by
  induction l with
  | nil => simp [compsBound, serCompetitors, joinComma]
  | cons x t ih =>
    rw [length_serCompetitors_eq]
    have hx := le_length_serCompetitor x
    have hbd : compsBound (x :: t) = compValueBound x + compsBound t := rfl
    cases t with
    | nil =>
      rw [show joinComma ([x].map serCompetitor) = serCompetitor x from rfl]
      rw [hbd]
      have h2 : compsBound ([] : List Competitor) = 2 := rfl
      omega
    | cons y u =>
      rw [length_serCompetitors_eq] at ih
      rw [show joinComma ((x :: y :: u).map serCompetitor)
          = serCompetitor x ++ ',' :: joinComma ((y :: u).map serCompetitor) from rfl]
      rw [hbd]
      simp only [List.length_append, List.length_cons] at ih ⊢
      omega

theorem structBound_le_length (S : StructuredResult) :
    structBound S ≤ (serStructuredResult S).length := by
  have h1 := le_length_serCompetitors S.top_competitors
  show compsBound S.top_competitors + 4 ≤ (serStructuredResult S).length
  simp only [serStructuredResult, List.length_append, List.length_cons]
  have hk : (serStr keyTop).length = 17 := rfl
  simp only [hk]
  omega

/-- The serialized StructuredResult parses back to its JSON image:
`json.loads` inverts the serializer. -/
theorem json_loads_serStructuredResult (S : StructuredResult) :
    json_loads (serStructuredResult S) = .ok (structuredResultJson S) := by
  rw [json_loads]
  have h := parseValue_serStructuredResult
    (2 * (serStructuredResult S).length + 2) S []
    (by have := structBound_le_length S; omega)
  rw [List.append_nil] at h
  rw [h]
  rfl

end RoundTripFuel

section WrapFind

theorem pyfindNat_wrap_start (p T : Str) (hp : occursB start_marker p = false) :
    pyfindNat (p ++ (start_marker ++ T)) start_marker = some p.length := by
  apply pyfindNat_append_some
  · intro i hi h
    rcases prefix_drop_append_cases _ _ _ _ h with
      ⟨hle, hin⟩ | ⟨hge, hin⟩ | ⟨h1, h2, heq, hrest⟩
    · exact (occursB_eq_false_iff _ _).mp hp _ hin
    · omega
    · have h12 : start_marker.length = 12 := rfl
      have hk1 : 0 < p.length - i := by omega
      have hk2 : p.length - i < 12 := by omega
      have hlen : (start_marker.drop (p.length - i)).length = 12 - (p.length - i) := by
        rw [List.length_drop, h12]
      have hpre : start_marker.drop (p.length - i) <+: start_marker := by
        refine prefix_of_prefix_append _ _ _ hrest ?_
        rw [hlen, h12]
        omega
      have heq2 : start_marker.drop (p.length - i)
          = start_marker.take (12 - (p.length - i)) := by
        have hx := List.prefix_iff_eq_take.mp hpre
        rw [hlen] at hx
        exact hx
      have hB : ∀ j, j < 12 → 0 < j →
          ¬ start_marker.drop j = start_marker.take (12 - j) := by decide
      exact hB _ hk2 hk1 heq2
  · exact List.prefix_append _ _

theorem pyfindNat_wrap_end (p ser : Str) (hp : occursB end_marker p = false)
    (hs : occursB end_marker ser = false) :
    pyfindNat ((p ++ (start_marker ++ ser)) ++ end_marker) end_marker
      = some (p ++ (start_marker ++ ser)).length := by
  have h12 : start_marker.length = 12 := rfl
  have h10 : end_marker.length = 10 := rfl
  apply pyfindNat_append_some
  · intro i hi h
    rcases prefix_drop_append_cases _ _ _ _ h with
      ⟨hle, hin⟩ | ⟨hge, hin⟩ | ⟨h1, h2, heq, hrest⟩
    · -- occurrence contained in p ++ (start_marker ++ ser)
      rcases prefix_drop_append_cases _ _ _ _ hin with
        ⟨l1, in1⟩ | ⟨g1, in1⟩ | ⟨s1, s2, seq, srest⟩
      · exact (occursB_eq_false_iff _ _).mp hp _ in1
      · rcases prefix_drop_append_cases _ _ _ _ in1 with
          ⟨l2, in2⟩ | ⟨g2, in2⟩ | ⟨t1, t2, teq, trest⟩
        · have hB3 : ∀ j, j < 12 → ¬ end_marker <+: start_marker.drop j := by decide
          exact hB3 _ (by omega) in2
        · exact (occursB_eq_false_iff _ _).mp hs _ in2
        · have hB4 : ∀ j, j < 12 →
              ¬ start_marker.drop j = end_marker.take (start_marker.length - j) := by
            decide
          exact hB4 _ (by omega) teq
      · -- straddle p into start_marker ++ ser
        have hk1 : 0 < p.length - i := by omega
        have hk2 : p.length - i < 10 := by omega
        have hlen : (end_marker.drop (p.length - i)).length
            = 10 - (p.length - i) := by
          rw [List.length_drop, h10]
        have hpre : end_marker.drop (p.length - i) <+: start_marker := by
          refine prefix_of_prefix_append _ _ _ srest ?_
          rw [hlen, h12]
          omega
        have heq2 : end_marker.drop (p.length - i)
            = start_marker.take (10 - (p.length - i)) := by
          have hx := List.prefix_iff_eq_take.mp hpre
          rw [hlen] at hx
          exact hx
        have hB5 : ∀ j, j < 10 → 0 < j →
            ¬ end_marker.drop j = start_marker.take (10 - j) := by decide
        exact hB5 _ hk2 hk1 heq2
    · omega
    · -- straddle X into the closing end_marker
      have hk1 : 0 < (p ++ (start_marker ++ ser)).length - i := by omega
      have hk2 : (p ++ (start_marker ++ ser)).length - i < 10 := by omega
      have hlen : (end_marker.drop ((p ++ (start_marker ++ ser)).length - i)).length
          = 10 - ((p ++ (start_marker ++ ser)).length - i) := by
        rw [List.length_drop, h10]
      have heq2 : end_marker.drop ((p ++ (start_marker ++ ser)).length - i)
          = end_marker.take (10 - ((p ++ (start_marker ++ ser)).length - i)) := by
        have hx := List.prefix_iff_eq_take.mp hrest
        rw [hlen] at hx
        exact hx
      have hB2 : ∀ j, j < 10 → 0 < j →
          ¬ end_marker.drop j = end_marker.take (10 - j) := by decide
      exact hB2 _ hk2 hk1 heq2
  · exact List.prefix_rfl

end WrapFind

section WrapSlice

theorem pyindexEff_natCast (len n : Nat) (h : n ≤ len) :
    pyindexEff len ((n : Nat) : Int) = n := by
  rw [pyindexEff, if_neg (by simp)]
  simp
  omega

theorem pyslice_middle (A B C : Str) :
    pyslice ((A ++ B) ++ C) ((A.length : Nat) : Int)
      (((A ++ B).length : Nat) : Int) = B := by
  rw [pyslice]
  rw [pyindexEff_natCast _ _ (by simp [List.length_append])]
  rw [pyindexEff_natCast _ _ (by simp [List.length_append])]
  rw [List.take_left, List.drop_left]

theorem pyslice_zero_pref (A C : Str) :
    pyslice (A ++ C) 0 ((A.length : Nat) : Int) = A := by
  rw [pyslice]
  rw [show (0 : Int) = ((0 : Nat) : Int) from rfl]
  rw [pyindexEff_natCast _ _ (by simp)]
  rw [pyindexEff_natCast _ _ (by simp [List.length_append])]
  rw [List.take_left, List.drop_zero]

theorem pystrip_braced (M : Str) :
    pystrip (('\x7b' :: M) ++ [ '\x7d' ]) = ('\x7b' :: M) ++ [ '\x7d' ] := by
  rw [pystrip]
  have h1 : (('\x7b' :: M) ++ [ '\x7d' ]).dropWhile pyWs
      = ('\x7b' :: M) ++ [ '\x7d' ] := by
    rw [List.cons_append, List.dropWhile_cons,
      show pyWs '\x7b' = false from rfl]
    simp
  rw [h1]
  have h2 : ((('\x7b' :: M) ++ [ '\x7d' ]).reverse).dropWhile pyWs
      = (('\x7b' :: M) ++ [ '\x7d' ]).reverse := by
    rw [List.reverse_append]
    rw [show ([ '\x7d' ] : Str).reverse = [ '\x7d' ] from rfl]
    rw [List.cons_append, List.dropWhile_cons,
      show pyWs '\x7d' = false from rfl]
    simp
  rw [h2, List.reverse_reverse]

end WrapSlice

section WrapExtract

theorem wrap_eq_start_form (p : Str) (S : StructuredResult) :
    wrap_completion p S
      = p ++ (start_marker ++ (serStructuredResult S ++ end_marker)) := by
  simp [wrap_completion, List.append_assoc]

theorem wrap_eq_end_form (p : Str) (S : StructuredResult) :
    wrap_completion p S
      = (p ++ (start_marker ++ serStructuredResult S)) ++ end_marker := by
  simp [wrap_completion, List.append_assoc]

theorem pyfind_wrap_start (p : Str) (S : StructuredResult)
    (hp1 : occursB start_marker p = false) :
    pyfind (wrap_completion p S) start_marker = (p.length : Int) := by
  rw [wrap_eq_start_form, pyfind, pyfindNat_wrap_start _ _ hp1]

theorem pyfind_wrap_end (p : Str) (S : StructuredResult)
    (hp2 : occursB end_marker p = false)
    (hs2 : occursB end_marker (serStructuredResult S) = false) :
    pyfind (wrap_completion p S) end_marker
      = (((p ++ (start_marker ++ serStructuredResult S)).length : Nat) : Int) := by
  rw [wrap_eq_end_form, pyfind, pyfindNat_wrap_end _ _ hp2 hs2]

theorem candidate_json_wrap (p : Str) (S : StructuredResult)
    (hp1 : occursB start_marker p = false)
    (hp2 : occursB end_marker p = false)
    (hs2 : occursB end_marker (serStructuredResult S) = false) :
    candidate_json (wrap_completion p S) = serStructuredResult S := by
  rw [candidate_json, pyfind_wrap_start p S hp1, pyfind_wrap_end p S hp2 hs2]
  rw [show (p.length : Int) + (start_marker.length : Int)
      = (((p ++ start_marker).length : Nat) : Int) from by
    simp [List.length_append]]
  rw [show p ++ (start_marker ++ serStructuredResult S)
      = (p ++ start_marker) ++ serStructuredResult S from
    (List.append_assoc _ _ _).symm]
  rw [show wrap_completion p S
      = ((p ++ start_marker) ++ serStructuredResult S) ++ end_marker from by
    simp [wrap_completion, List.append_assoc]]
  rw [pyslice_middle (p ++ start_marker) (serStructuredResult S) end_marker]
  rw [show serStructuredResult S
      = ('\x7b' :: (serStr keyTop ++ ':' :: serCompetitors S.top_competitors))
        ++ [ '\x7d' ] from rfl]
  exact pystrip_braced _

theorem analysis_of_wrap (p : Str) (S : StructuredResult)
    (hp1 : occursB start_marker p = false) :
    analysis_of (wrap_completion p S) = pystrip p := by
  rw [analysis_of, pyfind_wrap_start p S hp1, wrap_eq_start_form]
  rw [pyslice_zero_pref p (start_marker ++ (serStructuredResult S ++ end_marker))]

theorem structuredResultJson_injective (S T : StructuredResult)
    (h : structuredResultJson S = structuredResultJson T) : S = T := by
  have hmap : S.top_competitors.map competitorJson
      = T.top_competitors.map competitorJson := by
    simpa [structuredResultJson] using h
  have hinj : ∀ a b : Competitor, competitorJson a = competitorJson b → a = b := by
    intro a b hab
    have hstr : ∀ x y : List Str, x.map JVal.str = y.map JVal.str → x = y := by
      intro x y hxy
      exact List.map_injective_iff.mpr (fun u v huv => by
        cases huv
        rfl) hxy
    simp only [competitorJson, competitorMembers, JVal.obj.injEq,
      List.cons.injEq, Prod.mk.injEq, JVal.str.injEq, JVal.arr.injEq,
      and_true, true_and] at hab
    obtain ⟨h1, h2, h3, h4⟩ := hab
    cases a
    cases b
    simp only [Competitor.mk.injEq]
    exact ⟨h1, hstr _ _ h2, hstr _ _ h3, hstr _ _ h4⟩
  have : S.top_competitors = T.top_competitors :=
    List.map_injective_iff.mpr (fun a b hab => hinj a b hab) hmap
  cases S
  cases T
  simpa using this

end WrapExtract

/-- C5 counterexample: the round-trip claim quantifies over EVERY
StructuredResult `S`, but serialization does not escape the sentinel
markers: for `badS`, whose competitor name contains `[JSON_END]`,
`find` locates that embedded occurrence first, the candidate JSON is
truncated mid-string, and extraction fails -- even though the prefix
satisfies the claim's marker-freedom condition. -/
theorem C5_marker_in_field_counterexample :
    occursB start_marker prefC5 = false ∧
    occursB end_marker prefC5 = false ∧
    extract_json_from_text (wrap_completion prefC5 badS)
      = .error ⟨500, failDetailHead ++ msgUnterminatedStr⟩ :=
  ⟨rfl, rfl, rfl⟩

/-- C5 (amended): for every StructuredResult `S` whose serialization does
not contain `[JSON_END]`, and every prefix containing neither marker,
extracting the wrapped completion yields the analysis equal to the
trimmed prefix and a structured result equal to the JSON image of `S`
(deep-equality: `structuredResultJson` is injective, see
`structuredResultJson_injective`). -/
theorem C5_roundtrip_amended (p : Str) (S : StructuredResult)
    (hp1 : occursB start_marker p = false)
    (hp2 : occursB end_marker p = false)
    (hs2 : occursB end_marker (serStructuredResult S) = false) :
    extract_json_from_text (wrap_completion p S)
      = .ok (structuredResultJson S) ∧
    analysis_of (wrap_completion p S) = pystrip p := by
  constructor
  · rw [extract_json_from_text, candidate_json_wrap p S hp1 hp2 hs2,
      json_loads_serStructuredResult]
  · exact analysis_of_wrap p S hp1

theorem C5_roundtrip_witness :
    occursB start_marker prefC5 = false ∧
    occursB end_marker prefC5 = false ∧
    occursB end_marker (serStructuredResult goodS) = false ∧
    extract_json_from_text (wrap_completion prefC5 goodS)
      = .ok (structuredResultJson goodS) ∧
    analysis_of (wrap_completion prefC5 goodS) = pystrip prefC5 :=
  ⟨rfl, rfl, rfl,
    (C5_roundtrip_amended prefC5 goodS rfl rfl rfl).1,
    (C5_roundtrip_amended prefC5 goodS rfl rfl rfl).2⟩

section SanityAnchors

/-- Behavioural anchors for the `json.loads` model on closed inputs. -/
theorem json_loads_anchor_ok :
    json_loads (( "\x7b\x7d").toList) = .ok (JVal.obj []) ∧
    json_loads (( " [true, null] ").toList)
      = .ok (JVal.arr [JVal.bool true, JVal.null]) ∧
    json_loads (( "\x7b\"a\": [\"b\\n\", -12]\x7d").toList)
      = .ok (JVal.obj [(( "a").toList,
          JVal.arr [JVal.str (( "b\n").toList), JVal.num (-12)])]) :=
  ⟨rfl, rfl, rfl⟩

/-- Behavioural anchors for the `json.loads` model on malformed inputs. -/
theorem json_loads_anchor_error :
    json_loads (( "[true,]").toList) = .error msgExpectingValue ∧
    json_loads (( "").toList) = .error msgExpectingValue ∧
    json_loads (( "nope").toList) = .error msgExpectingValue :=
  ⟨rfl, rfl, rfl⟩

/-- The end-to-end example of the spec (§8): the mocked completion text
splits into the free-text analysis and the parsed competitor object. -/
theorem extract_spec_example :
    extract_json_from_text
      (( "Analysis here.[JSON_START] \x7b\"top_competitors\": []\x7d [JSON_END]").toList)
      = .ok (JVal.obj [(( "top_competitors").toList, JVal.arr [])]) ∧
    analysis_of
      (( "Analysis here.[JSON_START] \x7b\"top_competitors\": []\x7d [JSON_END]").toList)
      = ( "Analysis here.").toList ∧
    conformsStructuredResult
      (JVal.obj [(( "top_competitors").toList, JVal.arr [])]) = true :=
  ⟨rfl, rfl, rfl⟩

end SanityAnchors
